import Mathlib

/-!
# jsonDerulo: the value model of `parser.hpp`

A shallow embedding of the header `src/parser.hpp` (namespace `JsonDerulo`):
the tagged `Value` with its `std::variant` payload, the containers `Object`
and `Array`, the typed accessors `cast` / `try_cast` and the two index
operators that the header defines inline.  `try_cast` is embedded as it is
written: its call of `std::get_if` has no viable overload, so no
instantiation of it compiles.

Conventions of the embedding

* `sPtr<T>` (a `std::shared_ptr<T>`) is `Option T`: `none` is the empty
  pointer `nullptr`, `some x` a pointer to `x`.  Aliasing between copies is
  not observable by the operations embedded here.
* `val_t` (a `std::variant` of six shared pointers) is an inductive type with
  one constructor per alternative, in the order of the source.
* A call that throws, whose behaviour the language leaves undefined, or that
  the compiler rejects, yields `Except.error` with a `Fault` saying which of
  the three happened.
* `int` is `Int`; the only place where its width matters is the conversion of
  an `int` index to the unsigned `size_type` of `std::vector`, done modulo
  `2 ^ 64`.
* `double` payloads are carried as their IEEE-754 bit pattern; no arithmetic
  is performed on them.

The bodies of `Object::insert`, `Object::get`, `Object::try_get`, of
`Parser` and of the tokenizer live in `parser.tpp` / `tokenizer.hpp`, which
the header only includes.  Where a statement needs them they are modelled
from the design document and marked as such.
-/

namespace JsonDerulo

/-! ## Data model (parser.hpp, lines 13-98) -/

/-- The enumeration `ValueType`, enumerators in source order. -/
inductive ValueType where
  | STRING
  | DOUBLE
  | INT
  | OBJECT
  | BOOL
  | ARRAY
  deriving DecidableEq, Repr

/-- A `double`, carried as its 64-bit IEEE-754 pattern. -/
structure Double where
  bits : Nat
  deriving DecidableEq, Repr

mutual
/-- Source: `struct Object`, the private `depth` and the public
`std::unordered_map<std::string, Value> elements`, kept as an association
list. -/
inductive Object where
  | mk (depth : Int) (elements : List (String × Value))
/-- Source: `struct Array`, the private `depth` and the public
`std::vector<Value> elements`. -/
inductive Array where
  | mk (depth : Int) (elements : List Value)
/-- Source: `using val_t = std::variant<sPtr<int>, sPtr<double>, sPtr<bool>,
sPtr<std::string>, sPtr<Object>, sPtr<Array>>`. -/
inductive val_t where
  | int (p : Option Int)
  | double (p : Option Double)
  | bool (p : Option Bool)
  | string (p : Option String)
  | object (p : Option Object)
  | array (p : Option Array)
/-- Source: `struct Value`, the fields `ValueType type; val_t value;`. -/
inductive Value where
  | mk (type : ValueType) (value : val_t)
end

/-- Field `Value::type`. -/
def Value.type : Value → ValueType
  | .mk t _ => t

/-- Field `Value::value`. -/
def Value.value : Value → val_t
  | .mk _ v => v

/-- Field `Object::depth`. -/
def Object.depth : Object → Int
  | .mk d _ => d

/-- Field `Object::elements`. -/
def Object.elements : Object → List (String × Value)
  | .mk _ es => es

/-- Field `Array::depth`. -/
def Array.depth : Array → Int
  | .mk d _ => d

/-- Field `Array::elements`. -/
def Array.elements : Array → List Value
  | .mk _ es => es

/-- Source: `struct JSON`, the field `Object root`. -/
structure JSON where
  root : Object

/-- Source: `Object() {}` with the member initialiser `int depth = 0`. -/
def Object.empty : Object := .mk 0 []

/-- Source: `Object(int depth) : depth(depth) {}`. -/
def Object.ofDepth (depth : Int) : Object := .mk depth []

/-- Source: `Array(int depth) : depth(depth) {}`. -/
def Array.ofDepth (depth : Int) : Array := .mk depth []

/-- The payload types a `cast<T>` can name: the `T` with `sPtr<T>` an
alternative of `val_t`. -/
inductive Ty where
  | int
  | double
  | bool
  | string
  | object
  | array
  deriving DecidableEq, Repr

/-- The C++ type denoted by a payload type. -/
@[reducible] def Ty.carrier : Ty → Type
  | .int => Int
  | .double => Double
  | .bool => Bool
  | .string => String
  | .object => Object
  | .array => Array

/-- The enumerator of `ValueType` that the one-argument constructor for `T`
writes into `type`. -/
def tagOf : Ty → ValueType
  | .int => .INT
  | .double => .DOUBLE
  | .bool => .BOOL
  | .string => .STRING
  | .object => .OBJECT
  | .array => .ARRAY

/-- The alternative a variant currently holds (`std::variant::index`, named
by payload type). -/
def val_t.alternative : val_t → Ty
  | .int _ => .int
  | .double _ => .double
  | .bool _ => .bool
  | .string _ => .string
  | .object _ => .object
  | .array _ => .array

/-- The variant holding the shared pointer `p` in the alternative of `T`. -/
def val_t.of : (T : Ty) → Option T.carrier → val_t
  | .int, p => .int p
  | .double, p => .double p
  | .bool, p => .bool p
  | .string, p => .string p
  | .object, p => .object p
  | .array, p => .array p

/-- The tag of the alternative that is active in the payload of `v`. -/
def Value.activeTag (v : Value) : ValueType := tagOf v.value.alternative

/-- The invariant "the type tag matches the active payload". -/
def Value.TagMatches (v : Value) : Prop := v.type = v.activeTag

/-! ## Constructors of `Value` (parser.hpp, lines 85-98) -/

/-- Source: `Value() {}`.  `type` has no initialiser, so its content is
indeterminate and is an argument here; `value` is value-initialised, which
for a `std::variant` is its first alternative holding an empty
`sPtr<int>`. -/
def Value.default (indeterminate : ValueType) : Value :=
  .mk indeterminate (.int none)

/-- Source: `Value(int value)`. -/
def Value.ofInt (value : Int) : Value := .mk .INT (.int (some value))

/-- Source: `Value(double value)`. -/
def Value.ofDouble (value : Double) : Value := .mk .DOUBLE (.double (some value))

/-- Source: `Value(bool value)`. -/
def Value.ofBool (value : Bool) : Value := .mk .BOOL (.bool (some value))

/-- Source: `Value(std::string value)`. -/
def Value.ofString (value : String) : Value := .mk .STRING (.string (some value))

/-- Source: `Value(Object value)`. -/
def Value.ofObject (value : Object) : Value := .mk .OBJECT (.object (some value))

/-- Source: `Value(Array value)`. -/
def Value.ofArray (value : Array) : Value := .mk .ARRAY (.array (some value))

/-- Source: `Value(ValueType t, val_t value) : type(t), value(value) {}`. -/
def Value.ofTagged (t : ValueType) (value : val_t) : Value := .mk t value

/-- The one-argument constructor selected by the type of the argument. -/
def Value.ofPayload : (T : Ty) → T.carrier → Value
  | .int, x => Value.ofInt x
  | .double, x => Value.ofDouble x
  | .bool, x => Value.ofBool x
  | .string, x => Value.ofString x
  | .object, x => Value.ofObject x
  | .array, x => Value.ofArray x

/-! ## Accessors defined in the header (parser.hpp, lines 72, 104-122) -/

/-- Abnormal outcomes of an accessor. -/
inductive Fault where
  /-- The exception `std::bad_variant_access` thrown by `std::get`: the
  requested alternative is not the active one (a type mismatch). -/
  | bad_variant_access
  /-- The exception of a checked lookup of a key that is not in the map. -/
  | key_not_found
  /-- No exception is thrown and the language defines no result: an
  unchecked `std::vector::operator[]` outside `[0, size)`, or `->` applied to
  an empty `shared_ptr`. -/
  | undefined_behaviour
  /-- The call is ill-formed: overload resolution finds no viable function,
  the compiler rejects every instantiation of the enclosing template, and no
  call of it returns. -/
  | ill_formed
  deriving DecidableEq, Repr

/-- The library call `std::get<sPtr<T>>(value)`: the stored pointer when the
alternative of `T` is active, `std::bad_variant_access` otherwise. -/
def std_get (T : Ty) (value : val_t) : Except Fault (Option T.carrier) :=
  match T, value with
  | .int, .int p => .ok p
  | .double, .double p => .ok p
  | .bool, .bool p => .ok p
  | .string, .string p => .ok p
  | .object, .object p => .ok p
  | .array, .array p => .ok p
  | _, _ => .error .bad_variant_access

/-- The library function `std::get_if<sPtr<T>>` on a pointer to the variant
`value`: the address of the stored pointer (`some`) when the alternative of
`T` is active, a null address (`none`) otherwise. -/
def std_get_if (T : Ty) (value : val_t) : Option (Option T.carrier) :=
  match T, value with
  | .int, .int p => some p
  | .double, .double p => some p
  | .bool, .bool p => some p
  | .string, .string p => some p
  | .object, .object p => some p
  | .array, .array p => some p
  | _, _ => none

/-- What a call site hands to `std::get_if`. -/
inductive GetIfArgument where
  /-- The address of a variant, `&value`: the parameter type of every
  overload of `std::get_if`. -/
  | address_of (value : val_t)
  /-- The variant itself, `value`: no overload of `std::get_if` takes a
  variant, and a variant does not convert to a pointer. -/
  | variant_itself (value : val_t)

/-- Overload resolution for a call `std::get_if<sPtr<T>>(argument)`: the
library function on the address of a variant, and no viable overload, so an
ill-formed call, on a variant itself. -/
def std_get_if_call (T : Ty) : GetIfArgument → Except Fault (Option (Option T.carrier))
  | .address_of value => .ok (std_get_if T value)
  | .variant_itself _ => .error .ill_formed

/-- Source: `template <typename T> sPtr<T> cast() const
{ return std::get<sPtr<T>>(value); }`. -/
def Value.cast (T : Ty) (v : Value) : Except Fault (Option T.carrier) :=
  std_get T v.value

/-- Source: `template <typename T> sPtr<T> try_cast() const
{ if (std::get_if<sPtr<T>>(value)) { return std::get<sPtr<T>>(value); }
else { return nullptr; } }`.  The condition hands `value`, the variant
itself, to `std::get_if`. -/
def Value.try_cast (T : Ty) (v : Value) : Except Fault (Option T.carrier) :=
  match std_get_if_call T (.variant_itself v.value) with
  | .error e => .error e
  | .ok found => if found.isSome then std_get T v.value else .ok none

/-- Source: `Value &operator[](const std::string key) const
{ return std::get<sPtr<Object>>(value)->operator[](key); }`.
`Object::operator[]` is only declared in the header, so what it does on the
object is the argument `object_index`. -/
def Value.index (object_index : Object → String → Except Fault Value)
    (v : Value) (key : String) : Except Fault Value :=
  match std_get .object v.value with
  | .error e => .error e
  | .ok none => .error .undefined_behaviour
  | .ok (some o) => object_index o key

/-- Conversion of an `int` argument to the 64-bit unsigned `size_type` that
`std::vector::operator[]` takes. -/
def size_type_of_int (idx : Int) : Nat := (idx % 2 ^ 64).toNat

/-- Source: `Value &operator[](int idx) { return elements[idx]; }`, the
unchecked `std::vector::operator[]`: the element at the converted index when
it is below `size()`, and undefined behaviour otherwise. -/
def Array.index (a : Array) (idx : Int) : Except Fault Value :=
  match a.elements[size_type_of_int idx]? with
  | some v => .ok v
  | none => .error .undefined_behaviour


/-! ## Operations whose bodies are outside the header -/

/-- Lookup of a key in the element map (the library's
`std::unordered_map::find`). -/
def map_find (key : String) : List (String × Value) → Option Value
  | [] => none
  | (k, v) :: rest => if k = key then some v else map_find key rest

/-- Assignment in the element map (the library's
`std::unordered_map::insert_or_assign`): the value of an existing entry for
`key` is replaced, a new entry is added otherwise. -/
def map_assign (key : String) (val : Value) :
    List (String × Value) → List (String × Value)
  | [] => [(key, val)]
  | (k, v) :: rest =>
    if k = key then (key, val) :: rest else (k, v) :: map_assign key val rest

/-- The keys of an Object, one per entry. -/
def Object.keys (o : Object) : List String := o.elements.map Prod.fst

/-- Modelled from the spec: the body of `Object::insert` (declared in
parser.hpp, defined in the absent parser.tpp); section 4.2 has it "insert
key→value into the Object (overwriting any prior value for a duplicate
key)". -/
def Object.insert (o : Object) (key : String) (val : Value) : Object :=
  .mk o.depth (map_assign key val o.elements)

/-- Modelled from the spec: the body of `Object::get<T>(key)` (absent
parser.tpp).  The header documents it as "gets the value at the given key. If
the value is not of the given type, throws an exception"; a key that is not
in the map is the KeyNotFound error of section 7. -/
def Object.get (T : Ty) (o : Object) (key : String) :
    Except Fault (Option T.carrier) :=
  match map_find key o.elements with
  | none => .error .key_not_found
  | some v => v.cast T

/-- Modelled from the spec: the body of `Object::get<T>(key, default_val)`
(absent parser.tpp).  The header documents it as "gets the value at the given
key. If the value is not of the given type, returns the default value"; by
section 7 the lenient accessors return the default instead of failing. -/
def Object.get_default (T : Ty) (o : Object) (key : String)
    (default_val : T.carrier) : Except Fault (Option T.carrier) :=
  match map_find key o.elements with
  | none => .ok (some default_val)
  | some v =>
    match std_get_if T v.value with
    | some p => .ok p
    | none => .ok (some default_val)

/-- Modelled from the spec: the body of `Object::try_get<T>(key)` (absent
parser.tpp).  The header documents it as "gets the value at the given key. If
the value is not of the given type, returns nullptr"; by section 7 the
lenient accessors return an absent value instead of failing.  The model
tests the variant of the Value itself, as `get<T>(key, default_val)` does,
and does not go through `Value::try_cast`. -/
def Object.try_get (T : Ty) (o : Object) (key : String) :
    Except Fault (Option T.carrier) :=
  match map_find key o.elements with
  | none => .ok none
  | some v =>
    match std_get_if T v.value with
    | some p => .ok p
    | none => .ok none

/-! ## Tokenizer and parser (tokenizer.hpp and parser.tpp, both absent) -/

/-- Modelled from the spec: the token kinds of section 3 (tokenizer.hpp is
absent).  A number literal carries its text and the tokenizer's
classification as integer or double. -/
inductive Token where
  | left_brace
  | right_brace
  | left_bracket
  | right_bracket
  | colon
  | comma
  | string_literal (s : String)
  | number_literal (text : List Char) (integral : Bool)
  | true_literal
  | false_literal
  | null_literal
  | end_of_input

/-- Modelled from the spec: the parse-time error kinds of section 7.
`RecursionBound` is not one of them: it is what the recursion bound of the
embedding would report, and `Parser.parse` sets the bound above what a source
text can use. -/
inductive ParseError where
  | LexError
  | UnexpectedEOF
  | UnexpectedToken
  | ExpectedKey
  | ExpectedColon
  | ExpectedCommaOrBrace
  | ExpectedCommaOrBracket
  | TrailingContentError
  | RecursionBound
  deriving DecidableEq, Repr

/-- Modelled from the spec: the state of the Tokenizer of section 4.1
(tokenizer.hpp is absent): the source text from the cursor on, and whether
the end-of-input token has been handed out. -/
structure Tokenizer where
  source : List Char
  finished : Bool

/-- Modelled from the spec: the whitespace of section 4.1 (tokenizer.hpp is
absent), "space, tab, newline, carriage return". -/
def is_whitespace (c : Char) : Bool :=
  c.toNat = 32 || c.toNat = 9 || c.toNat = 10 || c.toNat = 13

/-- Modelled from the spec: "whitespace between tokens is skipped" (section
4.1): the source text after leading whitespace. -/
def skip_whitespace : List Char → List Char
  | [] => []
  | c :: rest => if is_whitespace c then skip_whitespace rest else c :: rest

/-- Modelled from the spec: a hex digit of a `\uXXXX` escape (section 4.1),
in either case, and its value. -/
def hex_value (c : Char) : Option Nat :=
  if 48 ≤ c.toNat ∧ c.toNat ≤ 57 then some (c.toNat - 48)
  else if 97 ≤ c.toNat ∧ c.toNat ≤ 102 then some (c.toNat - 87)
  else if 65 ≤ c.toNat ∧ c.toNat ≤ 70 then some (c.toNat - 55)
  else none

/-- Modelled from the spec: the "4 hex digits" of a `\uXXXX` escape (section
4.1): the UTF-16 code unit they write, and the text after them. -/
def hex4 : List Char → Option (Nat × List Char)
  | a :: b :: c :: d :: rest =>
    match hex_value a, hex_value b, hex_value c, hex_value d with
    | some x, some y, some z, some w => some (((x * 16 + y) * 16 + z) * 16 + w, rest)
    | _, _, _, _ => none
  | _ => none

/-- Modelled from the spec: the one-letter escapes of section 4.1, the quote,
the backslash, the slash and `b`, `f`, `n`, `r`, `t`, and the character each
stands for. -/
def simple_escape (c : Char) : Option Char :=
  if c.toNat = 34 then some (Char.ofNat 34)
  else if c.toNat = 92 then some (Char.ofNat 92)
  else if c.toNat = 47 then some (Char.ofNat 47)
  else if c = 'b' then some (Char.ofNat 8)
  else if c = 'f' then some (Char.ofNat 12)
  else if c = 'n' then some (Char.ofNat 10)
  else if c = 'r' then some (Char.ofNat 13)
  else if c = 't' then some (Char.ofNat 9)
  else none

/-- Modelled from the spec: what one step of the string rule of section 4.1
does with the text before it. -/
inductive StringStep where
  /-- The literal is malformed: unterminated, or an invalid escape. -/
  | fail
  /-- The closing quote was read; the text after it remains. -/
  | done (rest : List Char)
  /-- One character or escape was read. -/
  | more (rest : List Char) (pending : Option Nat) (acc : List Char)

/-- Modelled from the spec: one step of the string-literal rule of section
4.1: an escape (`\uXXXX` yields a UTF-16 code unit, a high surrogate waits in
`pending` for the low surrogate that must follow), the closing quote, or a
plain character.  `acc` holds the decoded characters in reverse. -/
def string_step (cs : List Char) (pending : Option Nat) (acc : List Char) : StringStep :=
  match cs with
  | [] => .fail
  | c :: rest =>
    if c.toNat = 92 then
      match rest with
      | [] => .fail
      | e :: rest2 =>
        if e = 'u' then
          match hex4 rest2 with
          | none => .fail
          | some (u, rest3) =>
            match pending with
            | some hi =>
              if 0xDC00 ≤ u ∧ u ≤ 0xDFFF then
                .more rest3 none
                  (Char.ofNat (0x10000 + (hi - 0xD800) * 0x400 + (u - 0xDC00)) :: acc)
              else .fail
            | none =>
              if 0xD800 ≤ u ∧ u ≤ 0xDBFF then .more rest3 (some u) acc
              else if 0xDC00 ≤ u ∧ u ≤ 0xDFFF then .fail
              else .more rest3 none (Char.ofNat u :: acc)
        else
          match pending with
          | some _ => .fail
          | none =>
            match simple_escape e with
            | some d => .more rest2 none (d :: acc)
            | none => .fail
    else if pending.isSome then .fail
    else if c.toNat = 34 then .done rest
    else .more rest none (c :: acc)

/-- Modelled from the spec: the string-literal rule of section 4.1, from
after the opening quote, as the repetition of `string_step`.  The first
argument bounds the steps by the length of the text, so reaching it is the
unterminated string. -/
def lex_string : Nat → List Char → Option Nat → List Char →
    Except ParseError (String × List Char)
  | 0, _, _, _ => .error .LexError
  | n + 1, cs, pending, acc =>
    match string_step cs pending acc with
    | .fail => .error .LexError
    | .done rest => .ok (String.mk acc.reverse, rest)
    | .more rest pending2 acc2 => lex_string n rest pending2 acc2

/-- Modelled from the spec: the decimal value of a run of digits, for "the
numeric text to be parsed as int" (section 3). -/
def digits_value (ds : List Char) : Nat :=
  ds.foldl (fun n c => 10 * n + (c.toNat - 48)) 0

/-- Modelled from the spec: the integer that the text of a literal without
fraction and exponent denotes (section 3). -/
def int_of_text : List Char → Int
  | '-' :: ds => - (digits_value ds : Int)
  | ds => (digits_value ds : Int)

/-- Modelled from the spec: "fits the chosen integer width" (section 4.1),
the width being that of the `int` which `Value(int)` takes, 32 bits. -/
def fits_int (n : Int) : Bool := decide (-(2 : Int) ^ 31 ≤ n) && decide (n < (2 : Int) ^ 31)

/-- Modelled from the spec: the integer part of a number literal, "`0` or
non-zero digit sequence". -/
def lex_int_part : List Char → Option (List Char × List Char)
  | [] => none
  | c :: rest =>
    if c = '0' then some ([c], rest)
    else if c.isDigit then some (c :: rest.takeWhile Char.isDigit, rest.dropWhile Char.isDigit)
    else none

/-- Modelled from the spec: the optional fraction, "`.` followed by digits".
The outer `none` is a dot without digits. -/
def lex_fraction : List Char → Option (List Char × List Char)
  | '.' :: rest =>
    match rest.takeWhile Char.isDigit with
    | [] => none
    | ds => some ('.' :: ds, rest.dropWhile Char.isDigit)
  | cs => some ([], cs)

/-- Modelled from the spec: the "optional `+`/`-`" of an exponent (section
4.1): the sign read and the text after it. -/
def lex_sign : List Char → List Char × List Char
  | '+' :: rest => (['+'], rest)
  | '-' :: rest => (['-'], rest)
  | cs => ([], cs)

/-- Modelled from the spec: the optional exponent, "`e`/`E`, optional
`+`/`-`, digits".  `none` is an exponent mark without digits. -/
def lex_exponent : List Char → Option (List Char × List Char)
  | [] => some ([], [])
  | c :: rest =>
    if c = 'e' ∨ c = 'E' then
      match (lex_sign rest).2.takeWhile Char.isDigit with
      | [] => none
      | ds => some (c :: (lex_sign rest).1 ++ ds, (lex_sign rest).2.dropWhile Char.isDigit)
    else some ([], c :: rest)

/-- Modelled from the spec: the number-literal rule of section 4.1, with the
classification "representable as an integer (no fractional part, no exponent,
fits the chosen integer width)". -/
def lex_number (cs : List Char) : Except ParseError (Token × List Char) :=
  let sign := match cs with
    | '-' :: _ => ['-']
    | _ => []
  match lex_int_part (cs.drop sign.length) with
  | none => .error .LexError
  | some (ip, r1) =>
    match lex_fraction r1 with
    | none => .error .LexError
    | some (fp, r2) =>
      match lex_exponent r2 with
      | none => .error .LexError
      | some (ep, r3) =>
        .ok (.number_literal (sign ++ ip ++ fp ++ ep)
              (fp.isEmpty && ep.isEmpty && fits_int (int_of_text (sign ++ ip))), r3)

/-- Modelled from the spec: the identifier characters of the whole-word rule
of section 4.1, letters, digits and the underscore. -/
def is_word_char (c : Char) : Bool := c.isAlphanum || c = '_'

/-- Modelled from the spec: the literals `true`, `false`, `null`, "matched as
whole-word keywords". -/
def lex_keyword (cs : List Char) : Except ParseError (Token × List Char) :=
  let word := cs.takeWhile is_word_char
  let rest := cs.dropWhile is_word_char
  if word = ['t', 'r', 'u', 'e'] then .ok (.true_literal, rest)
  else if word = ['f', 'a', 'l', 's', 'e'] then .ok (.false_literal, rest)
  else if word = ['n', 'u', 'l', 'l'] then .ok (.null_literal, rest)
  else .error .LexError

/-- Modelled from the spec: `Tokenizer::next()` of section 4.1, "consume and
return the next token"; after the end-of-input token has been returned a
further call is UnexpectedEOF. -/
def Tokenizer.next (t : Tokenizer) : Except ParseError (Token × Tokenizer) :=
  if t.finished then .error .UnexpectedEOF
  else
    match skip_whitespace t.source with
    | [] => .ok (.end_of_input, ⟨[], true⟩)
    | c :: rest =>
      if c.toNat = 123 then .ok (.left_brace, ⟨rest, false⟩)
      else if c.toNat = 125 then .ok (.right_brace, ⟨rest, false⟩)
      else if c = '[' then .ok (.left_bracket, ⟨rest, false⟩)
      else if c = ']' then .ok (.right_bracket, ⟨rest, false⟩)
      else if c = ':' then .ok (.colon, ⟨rest, false⟩)
      else if c = ',' then .ok (.comma, ⟨rest, false⟩)
      else if c.toNat = 34 then
        match lex_string rest.length rest none [] with
        | .error e => .error e
        | .ok (s, r) => .ok (.string_literal s, ⟨r, false⟩)
      else if c = '-' ∨ c.isDigit then
        match lex_number (c :: rest) with
        | .error e => .error e
        | .ok (tok, r) => .ok (tok, ⟨r, false⟩)
      else if c.isAlpha then
        match lex_keyword (c :: rest) with
        | .error e => .error e
        | .ok (tok, r) => .ok (tok, ⟨r, false⟩)
      else .error .LexError

/-- Modelled from the spec: `Tokenizer::peek()` of section 4.1, "return the
next token without consuming it". -/
def Tokenizer.peek (t : Tokenizer) : Except ParseError Token :=
  match t.next with
  | .error e => .error e
  | .ok (tok, _) => .ok tok

/-- Modelled from the spec: what sections 3 and 4.2 leave to the implementer
of the absent parser.tpp, as parameters of the parser: the conversion of the
text of a non-integer number literal to a `double`, and the Value built for
the token `null` (a Value has no null variant). -/
structure Conversions where
  strtod : List Char → Double
  null_value : Value


namespace Parser

/-- Modelled from the spec: the error for a token that is not the one the
grammar requires.  The end-of-input token is UnexpectedEOF ("input ended
where a token was required", and section 8 for the missing closing brace),
any other token the error of the production. -/
def wrong_token (tok : Token) (production : ParseError) : ParseError :=
  match tok with
  | .end_of_input => .UnexpectedEOF
  | _ => production

mutual
/-- Modelled from the spec: `Parser::expect_value` of section 4.2 (parser.tpp
is absent).  `depth` is the depth given to a container that starts here. -/
def expect_value (cv : Conversions) : Nat → Int → Tokenizer →
    Except ParseError (Value × Tokenizer)
  | 0, _, _ => .error .RecursionBound
  | n + 1, depth, tk =>
    match tk.next with
    | .error e => .error e
    | .ok (.left_brace, _) =>
      match expect_object cv n depth tk with
      | .error e => .error e
      | .ok (o, tk1) => .ok (Value.ofObject o, tk1)
    | .ok (.left_bracket, _) =>
      match expect_array cv n depth tk with
      | .error e => .error e
      | .ok (a, tk1) => .ok (Value.ofArray a, tk1)
    | .ok (.string_literal s, tk1) => .ok (Value.ofString s, tk1)
    | .ok (.number_literal text integral, tk1) =>
      if integral then .ok (Value.ofInt (int_of_text text), tk1)
      else .ok (Value.ofDouble (cv.strtod text), tk1)
    | .ok (.true_literal, tk1) => .ok (Value.ofBool true, tk1)
    | .ok (.false_literal, tk1) => .ok (Value.ofBool false, tk1)
    | .ok (.null_literal, tk1) => .ok (cv.null_value, tk1)
    | .ok (tok, _) => .error (wrong_token tok .UnexpectedToken)
/-- Modelled from the spec: `Parser::expect_object` of section 4.2: consumes
the opening brace, returns the empty Object on a closing brace, and reads the
members otherwise. -/
def expect_object (cv : Conversions) : Nat → Int → Tokenizer →
    Except ParseError (Object × Tokenizer)
  | 0, _, _ => .error .RecursionBound
  | n + 1, depth, tk =>
    match tk.next with
    | .error e => .error e
    | .ok (.left_brace, tk1) =>
      match tk1.peek with
      | .error e => .error e
      | .ok .right_brace =>
        match tk1.next with
        | .error e => .error e
        | .ok (_, tk2) => .ok (Object.ofDepth depth, tk2)
      | .ok _ => object_members cv n depth (Object.ofDepth depth) tk1
    | .ok (tok, _) => .error (wrong_token tok .UnexpectedToken)
/-- Modelled from the spec: the loop of `expect_object`: a string key, a
colon, a value that is inserted under the key, then a comma (continue) or a
closing brace (terminate). -/
def object_members (cv : Conversions) : Nat → Int → Object → Tokenizer →
    Except ParseError (Object × Tokenizer)
  | 0, _, _, _ => .error .RecursionBound
  | n + 1, depth, obj, tk =>
    match tk.next with
    | .error e => .error e
    | .ok (.string_literal key, tk1) =>
      match tk1.next with
      | .error e => .error e
      | .ok (.colon, tk2) =>
        match expect_value cv n (depth + 1) tk2 with
        | .error e => .error e
        | .ok (val, tk3) =>
          match tk3.next with
          | .error e => .error e
          | .ok (.comma, tk4) => object_members cv n depth (obj.insert key val) tk4
          | .ok (.right_brace, tk4) => .ok (obj.insert key val, tk4)
          | .ok (tok, _) => .error (wrong_token tok .ExpectedCommaOrBrace)
      | .ok (tok, _) => .error (wrong_token tok .ExpectedColon)
    | .ok (tok, _) => .error (wrong_token tok .ExpectedKey)
/-- Modelled from the spec: `Parser::expect_array` of section 4.2: consumes
the opening bracket, returns the empty Array on a closing bracket, and reads
the elements otherwise. -/
def expect_array (cv : Conversions) : Nat → Int → Tokenizer →
    Except ParseError (Array × Tokenizer)
  | 0, _, _ => .error .RecursionBound
  | n + 1, depth, tk =>
    match tk.next with
    | .error e => .error e
    | .ok (.left_bracket, tk1) =>
      match tk1.peek with
      | .error e => .error e
      | .ok .right_bracket =>
        match tk1.next with
        | .error e => .error e
        | .ok (_, tk2) => .ok (Array.ofDepth depth, tk2)
      | .ok _ => array_elements cv n depth (Array.ofDepth depth) tk1
    | .ok (tok, _) => .error (wrong_token tok .UnexpectedToken)
/-- Modelled from the spec: the loop of `expect_array`: a value that is
appended, then a comma (continue) or a closing bracket (terminate). -/
def array_elements (cv : Conversions) : Nat → Int → Array → Tokenizer →
    Except ParseError (Array × Tokenizer)
  | 0, _, _, _ => .error .RecursionBound
  | n + 1, depth, arr, tk =>
    match expect_value cv n (depth + 1) tk with
    | .error e => .error e
    | .ok (val, tk1) =>
      match tk1.next with
      | .error e => .error e
      | .ok (.comma, tk2) =>
        array_elements cv n depth (.mk arr.depth (arr.elements ++ [val])) tk2
      | .ok (.right_bracket, tk2) => .ok (.mk arr.depth (arr.elements ++ [val]), tk2)
      | .ok (tok, _) => .error (wrong_token tok .ExpectedCommaOrBracket)
end

/-- Modelled from the spec: `Parser::parse` of section 4.2 over a Tokenizer
on `source`: the document opens with a brace, `expect_object` reads the root
at depth 0, and the next token must be end-of-input.  Every recursive call
follows the consumption of a character or is one of at most three calls
between two consumptions, so the bound `3 * length + 3` is not reached. -/
def parse (cv : Conversions) (source : String) : Except ParseError JSON :=
  match expect_object cv (3 * source.length + 3) 0 ⟨source.toList, false⟩ with
  | .error e => .error e
  | .ok (root, tk) =>
    match tk.next with
    | .error e => .error e
    | .ok (.end_of_input, _) => .ok ⟨root⟩
    | .ok _ => .error .TrailingContentError

end Parser


/-! ## Lemmas on the variant and the element map -/

theorem tagOf_injective {T U : Ty} (h : tagOf T = tagOf U) : T = U := by
  cases T <;> cases U <;> first | rfl | cases h

theorem std_get_mismatch (T : Ty) (value : val_t) (h : value.alternative ≠ T) :
    std_get T value = .error .bad_variant_access := by
  cases T <;> cases value <;> first | rfl | exact absurd rfl h

theorem std_get_if_mismatch (T : Ty) (value : val_t) (h : value.alternative ≠ T) :
    std_get_if T value = none := by
  cases T <;> cases value <;> first | rfl | exact absurd rfl h

theorem map_find_assign (key : String) (val : Value) (es : List (String × Value)) :
    map_find key (map_assign key val es) = some val := by
  induction es with
  | nil => simp [map_assign, map_find]
  | cons e rest ih =>
    obtain ⟨k, v⟩ := e
    by_cases hk : k = key
    · simp [map_assign, map_find, hk]
    · simp [map_assign, map_find, hk, ih]

theorem keys_map_assign (key : String) (val : Value) (es : List (String × Value)) :
    (map_assign key val es).map Prod.fst =
      if key ∈ es.map Prod.fst then es.map Prod.fst else es.map Prod.fst ++ [key] := by
  induction es with
  | nil => simp [map_assign]
  | cons e rest ih =>
    obtain ⟨k, v⟩ := e
    by_cases hk : k = key
    · simp [map_assign, hk]
    · have hk2 : ¬ key = k := fun h => hk h.symm
      by_cases hm : key ∈ rest.map Prod.fst
      · simp [map_assign, hk, hk2, ih, hm]
      · simp [map_assign, hk, hk2, ih, hm]

theorem nodup_map_assign (key : String) (val : Value) (es : List (String × Value))
    (h : (es.map Prod.fst).Nodup) : ((map_assign key val es).map Prod.fst).Nodup := by
  rw [keys_map_assign]
  by_cases hm : key ∈ es.map Prod.fst
  · simpa [hm] using h
  · rw [if_neg hm]
    exact List.Nodup.append h (List.nodup_singleton key) (by simpa using hm)

theorem filter_map_assign (key : String) (val : Value) (es : List (String × Value))
    (h : (es.map Prod.fst).Nodup) :
    (map_assign key val es).filter (fun e => decide (e.1 = key)) = [(key, val)] := by
  induction es with
  | nil => simp [map_assign]
  | cons e rest ih =>
    obtain ⟨k, v⟩ := e
    have hn := List.nodup_cons.mp h
    by_cases hk : k = key
    · subst hk
      have hrest : rest.filter (fun e => decide (e.1 = k)) = [] := by
        rw [List.filter_eq_nil_iff]
        intro e he hek
        exact hn.1 (List.mem_map.mpr ⟨e, he, by simpa using hek⟩)
      simp [map_assign, hrest]
    · simp [map_assign, hk, ih hn.2]


/-! ## The tag invariant and the constructors -/

/-- C2, as amended: every Value built by one of the six payload constructors
has the type tag of its active payload (`type` is the tag of `U` exactly when
the variant holds the alternative of `U`), and a Value built by the
two-argument constructor has it exactly when the tag passed is the tag of the
alternative of the variant passed. -/
theorem payload_constructor_tag_matches (T : Ty) (x : T.carrier) :
    (Value.ofPayload T x).TagMatches ∧
    (∀ U : Ty, (Value.ofPayload T x).type = tagOf U ↔
      (Value.ofPayload T x).value.alternative = U) ∧
    (∀ (t : ValueType) (value : val_t),
      (Value.ofTagged t value).TagMatches ↔ t = tagOf value.alternative) := by
  refine ⟨?_, ?_, ?_⟩
  · cases T <;> rfl
  · intro U
    cases T <;> cases U <;> simp [Value.ofPayload, Value.ofInt, Value.ofDouble, Value.ofBool,
      Value.ofString, Value.ofObject, Value.ofArray, Value.type, Value.value, tagOf,
      val_t.alternative]
  · intro t value
    exact Iff.rfl

/-- C2 fails for the two-argument constructor: `Value(ValueType::STRING,
val_t(std::make_shared<int>(5)))` has the tag STRING while its variant holds
the int alternative. -/
theorem tag_invariant_counterexample :
    (Value.ofTagged ValueType.STRING (val_t.int (some 5))).type = ValueType.STRING ∧
    (Value.ofTagged ValueType.STRING (val_t.int (some 5))).value.alternative = Ty.int ∧
    ¬ (Value.ofTagged ValueType.STRING (val_t.int (some 5))).TagMatches ∧
    ¬ ((Value.ofTagged ValueType.STRING (val_t.int (some 5))).type = ValueType.INT ↔
        (Value.ofTagged ValueType.STRING (val_t.int (some 5))).value.alternative = Ty.int) := by
  refine ⟨rfl, rfl, ?_, ?_⟩ <;> simp [Value.TagMatches, Value.ofTagged,
    Value.type, Value.activeTag, Value.value, val_t.alternative, tagOf]

/-! ## cast and try_cast -/

/-- C3: for every Value `v` and payload type `T`, `cast<T>` returns the
payload of `v` when the active type tag of `v` (the tag of the alternative its
variant holds) is the tag of `T`, and fails with `std::bad_variant_access`, a
type mismatch, otherwise; the result type admits no payload of another type.
For a Value whose field `type` matches its payload the same holds with `type`
as the tag. -/
theorem cast_spec (v : Value) (T : Ty) :
    (v.activeTag = tagOf T →
      ∃ p : Option T.carrier, v.value = val_t.of T p ∧ v.cast T = .ok p) ∧
    (v.activeTag ≠ tagOf T → v.cast T = .error Fault.bad_variant_access) ∧
    (v.TagMatches →
      (v.type = tagOf T →
        ∃ p : Option T.carrier, v.value = val_t.of T p ∧ v.cast T = .ok p) ∧
      (v.type ≠ tagOf T → v.cast T = .error Fault.bad_variant_access)) := by
  have hyes : v.activeTag = tagOf T →
      ∃ p : Option T.carrier, v.value = val_t.of T p ∧ v.cast T = .ok p := by
    intro h
    have hT : v.value.alternative = T := tagOf_injective h
    subst hT
    obtain ⟨t, value⟩ := v
    cases value <;> exact ⟨_, rfl, rfl⟩
  have hno : v.activeTag ≠ tagOf T → v.cast T = .error Fault.bad_variant_access := by
    intro h
    exact std_get_mismatch T v.value (fun hT => h (by rw [Value.activeTag, hT]))
  refine ⟨hyes, hno, fun hm => ?_⟩
  unfold Value.TagMatches at hm
  rw [hm]
  exact ⟨hyes, hno⟩

/-- C4, on the code: for every Value `v` and payload type `T`,
`try_cast<T>(v)` is ill-formed and returns nothing, neither the payload of
`v` nor the empty pointer: the condition of its `if` passes the variant
itself to `std::get_if`, which takes the address of a variant.  So also for
`Value(1).try_cast<int>()`, where the payload 1 is due, and for
`Value(1).try_cast<std::string>()`, where the empty pointer is due. -/
theorem try_cast_ill_formed (v : Value) (T : Ty) :
    v.try_cast T = .error Fault.ill_formed ∧
    (∀ r : Option T.carrier, v.try_cast T ≠ .ok r) ∧
    (Value.ofInt 1).try_cast Ty.int ≠ .ok (some 1) ∧
    (Value.ofInt 1).try_cast Ty.string ≠ .ok none := by
  have h : ∀ (w : Value) (U : Ty), w.try_cast U = .error Fault.ill_formed :=
    fun _ _ => rfl
  refine ⟨h v T, fun r hr => ?_, fun hr => ?_, fun hr => ?_⟩
  · rw [h] at hr
    cases hr
  · rw [h] at hr
    cases hr
  · rw [h] at hr
    cases hr

/-- C9: for every payload `x` of type `T`, the Value built by the
one-argument constructor has the tag of `T`, `cast<T>` on it returns a
non-empty pointer to `x`, and `cast<U>` fails for every other payload type
`U`. -/
theorem construct_then_cast (T : Ty) (x : T.carrier) :
    (Value.ofPayload T x).type = tagOf T ∧
    (Value.ofPayload T x).cast T = .ok (some x) ∧
    (∀ U : Ty, U ≠ T → (Value.ofPayload T x).cast U = .error Fault.bad_variant_access) := by
  refine ⟨?_, ?_, ?_⟩
  · cases T <;> rfl
  · cases T <;> rfl
  · intro U hU
    cases T <;> cases U <;> first | rfl | exact absurd rfl hU

/-- C10, on the code: on `Value(1)`, `cast<int>` succeeds with the pointer
to 1 while `try_cast<int>` is ill-formed and returns no payload, and
`cast<std::string>` fails while `try_cast<std::string>` is ill-formed and
returns no empty pointer.  The defect is the call of `std::get_if` on the
variant itself in the condition of `try_cast`. -/
theorem try_cast_cast_failing_input :
    (Value.ofInt 1).cast Ty.int = .ok (some 1) ∧
    (Value.ofInt 1).try_cast Ty.int = .error Fault.ill_formed ∧
    (Value.ofInt 1).cast Ty.string = .error Fault.bad_variant_access ∧
    (Value.ofInt 1).try_cast Ty.string = .error Fault.ill_formed ∧
    ¬ ((Value.ofInt 1).try_cast Ty.string = .ok none ↔
        ∃ e, (Value.ofInt 1).cast Ty.string = .error e) := by
  refine ⟨rfl, rfl, rfl, rfl, fun h => ?_⟩
  have h2 : (Value.ofInt 1).try_cast Ty.string = .ok none := h.mpr ⟨_, rfl⟩
  cases h2

/-- The payload of a default-constructed Value: its variant holds an empty
`sPtr<int>`, which `cast<int>` returns without failing. -/
theorem cast_default_returns_empty (indeterminate : ValueType) :
    (Value.default indeterminate).cast Ty.int = .ok none := rfl

/-- An instance of C3: `cast<std::string>` on `Value(std::string("x"))`
returns the pointer to "x", and `cast<int>` on it fails. -/
theorem cast_spec_witness :
    (∃ p : Option String, (Value.ofString "x").value = val_t.of Ty.string p ∧
      (Value.ofString "x").cast Ty.string = .ok p) ∧
    (Value.ofString "x").cast Ty.int = .error Fault.bad_variant_access :=
  ⟨(cast_spec (Value.ofString "x") Ty.string).1 rfl,
    (cast_spec (Value.ofString "x") Ty.int).2.1 (by decide)⟩

/-- An instance of C9: `Value(7)` casts to the int 7 and to no string. -/
theorem construct_then_cast_witness :
    (Value.ofInt 7).cast Ty.int = .ok (some 7) ∧
    (Value.ofInt 7).cast Ty.string = .error Fault.bad_variant_access :=
  ⟨(construct_then_cast Ty.int 7).2.1,
    (construct_then_cast Ty.int 7).2.2 Ty.string (by decide)⟩

/-! ## Index operators -/

/-- C6: for every Array `a` and every `int` index `idx` (the vector being
within the size a `std::vector` can have), `a[idx]` returns the element at
position `idx` of `a.elements` when `0 <= idx < a.elements.size()`; for an
index at or beyond the size, or a negative one, there is no returned Value:
the access is outside the vector, the error condition of an unchecked
`operator[]`. -/
theorem array_index_spec (a : Array) (idx : Int)
    (hint : -(2 : Int) ^ 31 ≤ idx ∧ idx < (2 : Int) ^ 31)
    (hsize : a.elements.length < 2 ^ 63) :
    (0 ≤ idx ∧ idx < a.elements.length →
      ∃ e : Value, a.elements[idx.toNat]? = some e ∧ a.index idx = .ok e) ∧
    (((a.elements.length : Int) ≤ idx ∨ idx < 0) →
      a.index idx = .error Fault.undefined_behaviour ∧ ∀ v : Value, a.index idx ≠ .ok v) := by
  constructor
  · rintro ⟨h0, hlt⟩
    have hconv : size_type_of_int idx = idx.toNat := by
      unfold size_type_of_int
      omega
    have hlt2 : idx.toNat < a.elements.length := by omega
    refine ⟨a.elements[idx.toNat], List.getElem?_eq_getElem hlt2, ?_⟩
    simp [Array.index, hconv, List.getElem?_eq_getElem hlt2]
  · intro h
    have hout : a.elements.length ≤ size_type_of_int idx := by
      unfold size_type_of_int
      omega
    simp [Array.index, List.getElem?_eq_none hout]

/-- An instance of C6: in a three-element Array, index 1 returns the second
element, and the indices 3 and -1 return no Value. -/
theorem array_index_spec_witness :
    (∃ e : Value, [Value.ofInt 7, Value.ofInt 8, Value.ofInt 9][(1 : Int).toNat]? = some e ∧
      (Array.mk 0 [Value.ofInt 7, Value.ofInt 8, Value.ofInt 9]).index 1 = .ok e) ∧
    (Array.mk 0 [Value.ofInt 7, Value.ofInt 8, Value.ofInt 9]).index 3
      = .error Fault.undefined_behaviour ∧
    (Array.mk 0 [Value.ofInt 7, Value.ofInt 8, Value.ofInt 9]).index (-1)
      = .error Fault.undefined_behaviour :=
  ⟨(array_index_spec (Array.mk 0 [Value.ofInt 7, Value.ofInt 8, Value.ofInt 9]) 1
      (by decide) (by decide)).1 ⟨by decide, by decide⟩,
    ((array_index_spec (Array.mk 0 [Value.ofInt 7, Value.ofInt 8, Value.ofInt 9]) 3
      (by decide) (by decide)).2 (Or.inl (by decide))).1,
    ((array_index_spec (Array.mk 0 [Value.ofInt 7, Value.ofInt 8, Value.ofInt 9]) (-1)
      (by decide) (by decide)).2 (Or.inr (by decide))).1⟩

/-- C8: for every Value `v` and key `k`, if `v` holds an Object then `v[k]`
is the result of that Object's `operator[]` on `k`, whatever that operator
does; if `v` holds one of the other five alternatives, `v[k]` fails with
`std::bad_variant_access` and returns no Value. -/
theorem value_index_spec (object_index : Object → String → Except Fault Value)
    (v : Value) (k : String) :
    (∀ o : Object, v.value = val_t.object (some o) →
      v.index object_index k = object_index o k) ∧
    (v.value.alternative ≠ Ty.object →
      v.index object_index k = .error Fault.bad_variant_access ∧
      ∀ r : Value, v.index object_index k ≠ .ok r) := by
  constructor
  · intro o ho
    simp [Value.index, ho, std_get]
  · intro h
    simp [Value.index, std_get_mismatch Ty.object v.value h]

/-- An instance of C8: indexing a Value that holds an Object applies the
Object's operator, and indexing a Value that holds an int fails. -/
theorem value_index_spec_witness :
    (Value.ofObject (Object.mk 0 [("a", Value.ofInt 1)])).index
        (fun o key => (map_find key o.elements).elim (.error .key_not_found) .ok) "a"
      = .ok (Value.ofInt 1) ∧
    (Value.ofInt 3).index
        (fun o key => (map_find key o.elements).elim (.error .key_not_found) .ok) "a"
      = .error Fault.bad_variant_access :=
  ⟨((value_index_spec _ (Value.ofObject (Object.mk 0 [("a", Value.ofInt 1)])) "a").1 _ rfl).trans
      rfl,
    ((value_index_spec _ (Value.ofInt 3) "a").2 (by decide)).1⟩


/-! ## Objects: insertion and the typed getters -/

/-- C5: an Object whose keys are pairwise distinct (as the keys of a
`std::unordered_map` are) keeps them so under `insert`, the empty Object has
no key, and writing the same key twice leaves exactly one entry for it,
holding the value written last; so parsing `{"a":1,"a":2}` succeeds with an
Object whose only key `a` maps to the integer 2. -/
theorem insert_last_write_wins (o : Object) (k : String) (v1 v2 : Value)
    (cv : Conversions) (h : o.keys.Nodup) :
    Object.empty.keys = [] ∧
    (o.insert k v1).keys.Nodup ∧
    ((o.insert k v1).insert k v2).keys.Nodup ∧
    ((o.insert k v1).insert k v2).elements.filter (fun e => decide (e.1 = k)) = [(k, v2)] ∧
    map_find k ((o.insert k v1).insert k v2).elements = some v2 ∧
    (∃ j : JSON, Parser.parse cv "\x7b\"a\":1,\"a\":2\x7d" = .ok j ∧
      j.root.keys = ["a"] ∧ map_find "a" j.root.elements = some (Value.ofInt 2)) := by
  have h1 : (o.insert k v1).keys.Nodup := nodup_map_assign k v1 o.elements h
  refine ⟨rfl, h1, nodup_map_assign k v2 _ h1, filter_map_assign k v2 _ h1,
    map_find_assign k v2 _, ⟨_, rfl, rfl, rfl⟩⟩

/-- An instance of C5: on the Object with the one entry `b ↦ true`, writing
`a` twice. -/
theorem insert_last_write_wins_witness :
    (((Object.mk 0 [("b", Value.ofBool true)]).insert "a" (Value.ofInt 1)).insert "a"
        (Value.ofInt 2)).elements.filter (fun e => decide (e.1 = "a"))
      = [("a", Value.ofInt 2)] :=
  (insert_last_write_wins (Object.mk 0 [("b", Value.ofBool true)]) "a" (Value.ofInt 1)
    (Value.ofInt 2) ⟨fun _ => ⟨0⟩, Value.default ValueType.STRING⟩
    (by decide)).2.2.2.1

/-- C7: for every Object `o`, key `k` present in `o` with Value `val`, and
payload type `T`: when `val` is of type `T`, `get<T>(k)`, `get<T>(k, d)` and
`try_get<T>(k)` all return its payload; when it is not, `get<T>(k)` fails with
the type mismatch, `get<T>(k, d)` returns a pointer to the default `d`, and
`try_get<T>(k)` returns the empty pointer, neither of the two failing. -/
theorem object_get_spec (T : Ty) (o : Object) (k : String) (val : Value) (d : T.carrier)
    (hk : map_find k o.elements = some val) :
    (val.activeTag = tagOf T →
      ∃ p : Option T.carrier, val.value = val_t.of T p ∧
        o.get T k = .ok p ∧ o.get_default T k d = .ok p ∧ o.try_get T k = .ok p) ∧
    (val.activeTag ≠ tagOf T →
      o.get T k = .error Fault.bad_variant_access ∧
      o.get_default T k d = .ok (some d) ∧ o.try_get T k = .ok none) := by
  constructor
  · intro h
    have hT : val.value.alternative = T := tagOf_injective h
    subst hT
    obtain ⟨t, value⟩ := val
    cases value <;>
      exact ⟨_, rfl, by simp [Object.get, hk, Value.cast, Value.value, std_get, val_t.alternative],
        by simp [Object.get_default, hk, Value.value, std_get_if, val_t.alternative],
        by simp [Object.try_get, hk, Value.value, std_get_if, val_t.alternative]⟩
  · intro h
    have hm : val.value.alternative ≠ T := fun hT => h (by rw [Value.activeTag, hT])
    refine ⟨?_, ?_, ?_⟩
    · simp [Object.get, hk, Value.cast, std_get_mismatch T val.value hm]
    · simp [Object.get_default, hk, std_get_if_mismatch T val.value hm]
    · simp [Object.try_get, hk, std_get_if_mismatch T val.value hm]

/-- An instance of C7: on the Object with the one entry `s ↦ "x"`, the
integer getters on `s`. -/
theorem object_get_spec_witness :
    (Object.mk 0 [("s", Value.ofString "x")]).get Ty.int "s" = .error Fault.bad_variant_access ∧
    (Object.mk 0 [("s", Value.ofString "x")]).get_default Ty.int "s" 4 = .ok (some 4) ∧
    (Object.mk 0 [("s", Value.ofString "x")]).try_get Ty.int "s" = .ok none :=
  (object_get_spec Ty.int (Object.mk 0 [("s", Value.ofString "x")]) "s" (Value.ofString "x") 4
    rfl).2 (by decide)


/-! ## The parser on the examples of section 8 of the design document -/

/-- The modelled parser on the testable properties of section 8: integer and
double literals, empty containers, nested structure, escape decoding, and the
three error cases (a missing value, a root that is no object, a missing
closing brace). -/
theorem parse_section8_examples (cv : Conversions) :
    Parser.parse cv "\x7b\"a\": 1\x7d" = .ok ⟨.mk 0 [("a", Value.ofInt 1)]⟩ ∧
    Parser.parse cv "\x7b\"a\": 1.0\x7d"
      = .ok ⟨.mk 0 [("a", Value.ofDouble (cv.strtod ['1', '.', '0']))]⟩ ∧
    Parser.parse cv "\x7b\"a\": 1e2\x7d"
      = .ok ⟨.mk 0 [("a", Value.ofDouble (cv.strtod ['1', 'e', '2']))]⟩ ∧
    Parser.parse cv "\x7b\"a\":\x7b\x7d,\"b\":[]\x7d"
      = .ok ⟨.mk 0 [("a", Value.ofObject (.mk 1 [])), ("b", Value.ofArray (.mk 1 []))]⟩ ∧
    Parser.parse cv "\x7b\"x\":[1,2,\x7b\"y\":true\x7d]\x7d"
      = .ok ⟨.mk 0 [("x", Value.ofArray (.mk 1 [Value.ofInt 1, Value.ofInt 2,
          Value.ofObject (.mk 2 [("y", Value.ofBool true)])]))]⟩ ∧
    Parser.parse cv "\x7b\"s\":\"a\\nb\"\x7d" = .ok ⟨.mk 0 [("s", Value.ofString "a\nb")]⟩ ∧
    Parser.parse cv "\x7b\"a\":\x7d" = .error .UnexpectedToken ∧
    Parser.parse cv "[1,2]" = .error .UnexpectedToken ∧
    Parser.parse cv "\x7b\"a\":1" = .error .UnexpectedEOF :=
  ⟨rfl, rfl, rfl, rfl, rfl, rfl, rfl, rfl, rfl⟩

/-! ## The recursion bound of the parser is not reached -/

theorem length_skip_whitespace (cs : List Char) :
    (skip_whitespace cs).length ≤ cs.length := by
  induction cs with
  | nil => simp [skip_whitespace]
  | cons c rest ih =>
    unfold skip_whitespace
    split
    · exact Nat.le_succ_of_le ih
    · exact Nat.le_refl _

theorem length_hex4 {cs : List Char} {u : Nat} {r : List Char}
    (h : hex4 cs = some (u, r)) : r.length < cs.length := by
  unfold hex4 at h
  split at h
  · split at h
    · simp only [Option.some.injEq, Prod.mk.injEq] at h
      rw [← h.2]
      simp only [List.length_cons]; omega
    · cases h
  · cases h

theorem length_string_step_more {cs rest : List Char} {pending p2 : Option Nat}
    {acc acc2 : List Char} (h : string_step cs pending acc = .more rest p2 acc2) :
    rest.length < cs.length := by
  unfold string_step at h
  split at h
  · cases h
  · split at h
    · split at h
      · cases h
      · split at h
        · split at h
          · cases h
          · rename_i u rest3 h4
            have h3 := length_hex4 h4
            split at h
            · split at h
              · cases h
                simp only [List.length_cons]; omega
              · cases h
            · split at h
              · cases h
                simp only [List.length_cons]; omega
              · split at h
                · cases h
                · cases h
                  simp only [List.length_cons]; omega
        · split at h
          · cases h
          · split at h
            · cases h
              simp only [List.length_cons]; omega
            · cases h
    · split at h
      · cases h
      · split at h
        · cases h
        · cases h
          simp only [List.length_cons]; omega

theorem length_string_step_done {cs rest : List Char} {pending : Option Nat}
    {acc : List Char} (h : string_step cs pending acc = .done rest) :
    rest.length < cs.length := by
  unfold string_step at h
  split at h
  · cases h
  · split at h
    · split at h
      · cases h
      · split at h
        · split at h
          · cases h
          · split at h
            · split at h <;> cases h
            · split at h
              · cases h
              · split at h <;> cases h
        · split at h
          · cases h
          · split at h <;> cases h
    · split at h
      · cases h
      · split at h
        · cases h
          simp only [List.length_cons]; omega
        · cases h

theorem length_lex_string (n : Nat) : ∀ (cs : List Char) (pending : Option Nat)
    (acc : List Char) (s : String) (r : List Char),
    lex_string n cs pending acc = .ok (s, r) → r.length < cs.length := by
  induction n with
  | zero =>
    intro cs pending acc s r h
    unfold lex_string at h
    cases h
  | succ n ih =>
    intro cs pending acc s r h
    unfold lex_string at h
    split at h
    · cases h
    · rename_i rest hs
      have := length_string_step_done hs
      simp only [Except.ok.injEq, Prod.mk.injEq] at h
      rw [← h.2]
      exact this
    · rename_i rest p2 acc2 hs
      have h1 := length_string_step_more hs
      have h2 := ih _ _ _ _ _ h
      omega


theorem length_dropWhile_le (p : Char → Bool) (cs : List Char) :
    (cs.dropWhile p).length ≤ cs.length :=
  (List.dropWhile_suffix p).sublist.length_le

theorem length_lex_int_part {cs ip r : List Char} (h : lex_int_part cs = some (ip, r)) :
    r.length < cs.length := by
  unfold lex_int_part at h
  split at h
  · cases h
  · rename_i c rest
    split at h
    · cases h
      simp
    · split at h
      · cases h
        have := length_dropWhile_le Char.isDigit rest
        simp only [List.length_cons]; omega
      · cases h

theorem length_lex_fraction {cs fp r : List Char} (h : lex_fraction cs = some (fp, r)) :
    r.length ≤ cs.length := by
  unfold lex_fraction at h
  split at h
  · rename_i rest
    split at h
    · cases h
    · cases h
      have := length_dropWhile_le Char.isDigit rest
      simp only [List.length_cons]; omega
  · cases h
    exact Nat.le_refl _

theorem length_lex_sign (cs : List Char) : (lex_sign cs).2.length ≤ cs.length := by
  unfold lex_sign
  split <;> simp

theorem length_lex_exponent {cs ep r : List Char} (h : lex_exponent cs = some (ep, r)) :
    r.length ≤ cs.length := by
  unfold lex_exponent at h
  split at h
  · cases h
    exact Nat.le_refl _
  · rename_i c rest
    split at h
    · split at h
      · cases h
      · cases h
        have h1 := length_dropWhile_le Char.isDigit (lex_sign rest).2
        have h2 := length_lex_sign rest
        simp only [List.length_cons]; omega
    · cases h
      exact Nat.le_refl _

theorem length_lex_number {cs r : List Char} {tok : Token}
    (h : lex_number cs = .ok (tok, r)) : r.length < cs.length ∧ tok ≠ .end_of_input := by
  unfold lex_number at h
  simp only at h
  split at h
  · cases h
  · rename_i ip r1 h1
    split at h
    · cases h
    · rename_i fp r2 h2
      split at h
      · cases h
      · rename_i ep r3 h3
        cases h
        have l1 := length_lex_int_part h1
        have l2 := length_lex_fraction h2
        have l3 := length_lex_exponent h3
        have l0 : (cs.drop (match cs with | '-' :: _ => ['-'] | _ => []).length).length
            ≤ cs.length := by simp
        refine ⟨by omega, by simp⟩

theorem length_lex_keyword {cs r : List Char} {tok : Token}
    (h : lex_keyword cs = .ok (tok, r)) : r.length < cs.length ∧ tok ≠ .end_of_input := by
  have hsplit : cs.length = (cs.takeWhile is_word_char).length +
      (cs.dropWhile is_word_char).length := by
    have := congrArg List.length (List.takeWhile_append_dropWhile is_word_char cs)
    rw [List.length_append] at this
    exact this.symm
  unfold lex_keyword at h
  simp only at h
  split at h
  · rename_i hw
    cases h
    rw [hw] at hsplit
    refine ⟨by simp at hsplit; omega, by simp⟩
  · split at h
    · rename_i hw
      cases h
      rw [hw] at hsplit
      refine ⟨by simp at hsplit; omega, by simp⟩
    · split at h
      · rename_i hw
        cases h
        rw [hw] at hsplit
        refine ⟨by simp at hsplit; omega, by simp⟩
      · cases h

/-- A token other than end-of-input is read from at least one character, and
no call moves the cursor back. -/
theorem length_next {t t2 : Tokenizer} {tok : Token} (h : t.next = .ok (tok, t2)) :
    t2.source.length ≤ t.source.length ∧
    (tok ≠ .end_of_input → t2.source.length < t.source.length) := by
  unfold Tokenizer.next at h
  have hw := length_skip_whitespace t.source
  split at h
  · cases h
  · split at h
    · cases h
      simp
    · rename_i c rest hs
      rw [hs] at hw
      simp only [List.length_cons] at hw
      split at h
      · cases h; simp; omega
      · split at h
        · cases h; simp; omega
        · split at h
          · cases h; simp; omega
          · split at h
            · cases h; simp; omega
            · split at h
              · cases h; simp; omega
              · split at h
                · cases h; simp; omega
                · split at h
                  · split at h
                    · cases h
                    · rename_i s r hl
                      cases h
                      have := length_lex_string _ _ _ _ _ _ hl
                      simp; omega
                  · split at h
                    · split at h
                      · cases h
                      · rename_i tk r hl
                        cases h
                        have := length_lex_number hl
                        simp only [List.length_cons] at this
                        exact ⟨by simp; omega, fun _ => by simp; omega⟩
                    · split at h
                      · split at h
                        · cases h
                        · rename_i tk r hl
                          cases h
                          have := length_lex_keyword hl
                          simp only [List.length_cons] at this
                          exact ⟨by simp; omega, fun _ => by simp; omega⟩
                      · cases h


theorem lex_string_error (n : Nat) : ∀ (cs : List Char) (pending : Option Nat)
    (acc : List Char) (e : ParseError),
    lex_string n cs pending acc = .error e → e = .LexError := by
  induction n with
  | zero =>
    intro cs pending acc e h
    unfold lex_string at h
    cases h; rfl
  | succ n ih =>
    intro cs pending acc e h
    unfold lex_string at h
    split at h
    · cases h; rfl
    · cases h
    · exact ih _ _ _ _ h

theorem lex_number_error {cs : List Char} {e : ParseError}
    (h : lex_number cs = .error e) : e = .LexError := by
  unfold lex_number at h
  simp only at h
  split at h
  · cases h; rfl
  · split at h
    · cases h; rfl
    · split at h
      · cases h; rfl
      · cases h

theorem lex_keyword_error {cs : List Char} {e : ParseError}
    (h : lex_keyword cs = .error e) : e = .LexError := by
  unfold lex_keyword at h
  simp only at h
  split at h
  · cases h
  · split at h
    · cases h
    · split at h
      · cases h
      · cases h; rfl

theorem next_error {t : Tokenizer} {e : ParseError} (h : t.next = .error e) :
    e ≠ .RecursionBound := by
  unfold Tokenizer.next at h
  split at h
  · cases h; simp
  · split at h
    · cases h
    · split at h
      · cases h
      · split at h
        · cases h
        · split at h
          · cases h
          · split at h
            · cases h
            · split at h
              · cases h
              · split at h
                · cases h
                · split at h
                  · split at h
                    · rename_i hl
                      cases h
                      rw [lex_string_error _ _ _ _ _ hl]; simp
                    · cases h
                  · split at h
                    · split at h
                      · rename_i hl
                        cases h
                        rw [lex_number_error hl]; simp
                      · cases h
                    · split at h
                      · split at h
                        · rename_i hl
                          cases h
                          rw [lex_keyword_error hl]; simp
                        · cases h
                      · cases h; simp

theorem peek_error {t : Tokenizer} {e : ParseError} (h : t.peek = .error e) :
    e ≠ .RecursionBound := by
  unfold Tokenizer.peek at h
  split at h
  · rename_i hn
    cases h
    exact next_error hn
  · cases h

theorem wrong_token_ne_bound (tok : Token) (production : ParseError)
    (h : production ≠ .RecursionBound) : Parser.wrong_token tok production ≠ .RecursionBound := by
  unfold Parser.wrong_token
  split
  · simp
  · exact h


open Parser in
theorem expect_value_step (cv : Conversions) (n : Nat)
    (iho : ∀ depth tk, (3 * tk.source.length + 1 ≤ n →
        expect_object cv n depth tk ≠ .error .RecursionBound) ∧
      (∀ o tk2, expect_object cv n depth tk = .ok (o, tk2) →
        tk2.source.length < tk.source.length))
    (iha : ∀ depth tk, (3 * tk.source.length + 1 ≤ n →
        expect_array cv n depth tk ≠ .error .RecursionBound) ∧
      (∀ a tk2, expect_array cv n depth tk = .ok (a, tk2) →
        tk2.source.length < tk.source.length))
    (depth : Int) (tk : Tokenizer) :
    (3 * tk.source.length + 2 ≤ n + 1 →
        expect_value cv (n + 1) depth tk ≠ .error .RecursionBound) ∧
      (∀ v tk2, expect_value cv (n + 1) depth tk = .ok (v, tk2) →
        tk2.source.length < tk.source.length) := by
  constructor
  · intro hb h
    unfold expect_value at h
    split at h
    · rename_i e hn
      cases h
      exact next_error hn rfl
    · split at h
      · rename_i heq
        cases h
        exact (iho depth tk).1 (by omega) heq
      · cases h
    · split at h
      · rename_i heq
        cases h
        exact (iha depth tk).1 (by omega) heq
      · cases h
    · cases h
    · split at h <;> cases h
    · cases h
    · cases h
    · cases h
    · injection h with h
      exact wrong_token_ne_bound _ .UnexpectedToken (by simp) h
  · intro v tk2 h
    unfold expect_value at h
    split at h
    · cases h
    · split at h
      · cases h
      · rename_i heq
        cases h
        exact (iho depth tk).2 _ _ heq
    · split at h
      · cases h
      · rename_i heq
        cases h
        exact (iha depth tk).2 _ _ heq
    · rename_i hn
      cases h
      exact (length_next hn).2 (by simp)
    · rename_i hn
      split at h <;> (cases h; exact (length_next hn).2 (by simp))
    · rename_i hn
      cases h
      exact (length_next hn).2 (by simp)
    · rename_i hn
      cases h
      exact (length_next hn).2 (by simp)
    · rename_i hn
      cases h
      exact (length_next hn).2 (by simp)
    · cases h


open Parser in
theorem expect_object_step (cv : Conversions) (n : Nat)
    (ihm : ∀ depth obj tk, (3 * tk.source.length + 3 ≤ n →
        object_members cv n depth obj tk ≠ .error .RecursionBound) ∧
      (∀ o tk2, object_members cv n depth obj tk = .ok (o, tk2) →
        tk2.source.length < tk.source.length))
    (depth : Int) (tk : Tokenizer) :
    (3 * tk.source.length + 1 ≤ n + 1 →
        expect_object cv (n + 1) depth tk ≠ .error .RecursionBound) ∧
      (∀ o tk2, expect_object cv (n + 1) depth tk = .ok (o, tk2) →
        tk2.source.length < tk.source.length) := by
  constructor
  · intro hb h
    unfold expect_object at h
    split at h
    · rename_i e hn
      cases h
      exact next_error hn rfl
    · rename_i tk1 hn
      have h1 := (length_next hn).2 (by simp)
      split at h
      · rename_i e hp
        cases h
        exact peek_error hp rfl
      · split at h
        · rename_i e hn2
          cases h
          exact next_error hn2 rfl
        · cases h
      · exact (ihm depth _ tk1).1 (by omega) h
    · injection h with h
      exact wrong_token_ne_bound _ .UnexpectedToken (by simp) h
  · intro o tk2 h
    unfold expect_object at h
    split at h
    · cases h
    · rename_i tk1 hn
      have h1 := (length_next hn).2 (by simp)
      split at h
      · cases h
      · split at h
        · cases h
        · rename_i hn2
          cases h
          have h2 := (length_next hn2).1
          omega
      · have h2 := (ihm depth _ tk1).2 _ _ h
        omega
    · cases h

open Parser in
theorem object_members_step (cv : Conversions) (n : Nat)
    (ihv : ∀ depth tk, (3 * tk.source.length + 2 ≤ n →
        expect_value cv n depth tk ≠ .error .RecursionBound) ∧
      (∀ v tk2, expect_value cv n depth tk = .ok (v, tk2) →
        tk2.source.length < tk.source.length))
    (ihm : ∀ depth obj tk, (3 * tk.source.length + 3 ≤ n →
        object_members cv n depth obj tk ≠ .error .RecursionBound) ∧
      (∀ o tk2, object_members cv n depth obj tk = .ok (o, tk2) →
        tk2.source.length < tk.source.length))
    (depth : Int) (obj : Object) (tk : Tokenizer) :
    (3 * tk.source.length + 3 ≤ n + 1 →
        object_members cv (n + 1) depth obj tk ≠ .error .RecursionBound) ∧
      (∀ o tk2, object_members cv (n + 1) depth obj tk = .ok (o, tk2) →
        tk2.source.length < tk.source.length) := by
  constructor
  · intro hb h
    unfold object_members at h
    split at h
    · rename_i e hn
      cases h
      exact next_error hn rfl
    · rename_i key tk1 hn
      have h1 := (length_next hn).2 (by simp)
      split at h
      · rename_i e hn2
        cases h
        exact next_error hn2 rfl
      · rename_i tk2 hn2
        have h2 := (length_next hn2).2 (by simp)
        split at h
        · rename_i e hv
          cases h
          exact (ihv (depth + 1) tk2).1 (by omega) hv
        · rename_i val tk3 hv
          have h3 := (ihv (depth + 1) tk2).2 _ _ hv
          split at h
          · rename_i e hn4
            cases h
            exact next_error hn4 rfl
          · rename_i tk4 hn4
            have h4 := (length_next hn4).1
            exact (ihm depth _ tk4).1 (by omega) h
          · cases h
          · injection h with h
            exact wrong_token_ne_bound _ .ExpectedCommaOrBrace (by simp) h
      · injection h with h
        exact wrong_token_ne_bound _ .ExpectedColon (by simp) h
    · injection h with h
      exact wrong_token_ne_bound _ .ExpectedKey (by simp) h
  · intro o tkr h
    unfold object_members at h
    split at h
    · cases h
    · rename_i key tk1 hn
      have h1 := (length_next hn).1
      split at h
      · cases h
      · rename_i tk2 hn2
        have h2 := (length_next hn2).1
        split at h
        · cases h
        · rename_i val tk3 hv
          have h3 := (ihv (depth + 1) tk2).2 _ _ hv
          split at h
          · cases h
          · rename_i tk4 hn4
            have h4 := (length_next hn4).1
            have h5 := (ihm depth _ tk4).2 _ _ h
            omega
          · rename_i tk4 hn4
            have h4 := (length_next hn4).1
            cases h
            omega
          · cases h
      · cases h
    · cases h

open Parser in
theorem expect_array_step (cv : Conversions) (n : Nat)
    (ihe : ∀ depth arr tk, (3 * tk.source.length + 3 ≤ n →
        array_elements cv n depth arr tk ≠ .error .RecursionBound) ∧
      (∀ a tk2, array_elements cv n depth arr tk = .ok (a, tk2) →
        tk2.source.length < tk.source.length))
    (depth : Int) (tk : Tokenizer) :
    (3 * tk.source.length + 1 ≤ n + 1 →
        expect_array cv (n + 1) depth tk ≠ .error .RecursionBound) ∧
      (∀ a tk2, expect_array cv (n + 1) depth tk = .ok (a, tk2) →
        tk2.source.length < tk.source.length) := by
  constructor
  · intro hb h
    unfold expect_array at h
    split at h
    · rename_i e hn
      cases h
      exact next_error hn rfl
    · rename_i tk1 hn
      have h1 := (length_next hn).2 (by simp)
      split at h
      · rename_i e hp
        cases h
        exact peek_error hp rfl
      · split at h
        · rename_i e hn2
          cases h
          exact next_error hn2 rfl
        · cases h
      · exact (ihe depth _ tk1).1 (by omega) h
    · injection h with h
      exact wrong_token_ne_bound _ .UnexpectedToken (by simp) h
  · intro o tk2 h
    unfold expect_array at h
    split at h
    · cases h
    · rename_i tk1 hn
      have h1 := (length_next hn).2 (by simp)
      split at h
      · cases h
      · split at h
        · cases h
        · rename_i hn2
          cases h
          have h2 := (length_next hn2).1
          omega
      · have h2 := (ihe depth _ tk1).2 _ _ h
        omega
    · cases h

open Parser in
theorem array_elements_step (cv : Conversions) (n : Nat)
    (ihv : ∀ depth tk, (3 * tk.source.length + 2 ≤ n →
        expect_value cv n depth tk ≠ .error .RecursionBound) ∧
      (∀ v tk2, expect_value cv n depth tk = .ok (v, tk2) →
        tk2.source.length < tk.source.length))
    (ihe : ∀ depth arr tk, (3 * tk.source.length + 3 ≤ n →
        array_elements cv n depth arr tk ≠ .error .RecursionBound) ∧
      (∀ a tk2, array_elements cv n depth arr tk = .ok (a, tk2) →
        tk2.source.length < tk.source.length))
    (depth : Int) (arr : Array) (tk : Tokenizer) :
    (3 * tk.source.length + 3 ≤ n + 1 →
        array_elements cv (n + 1) depth arr tk ≠ .error .RecursionBound) ∧
      (∀ a tk2, array_elements cv (n + 1) depth arr tk = .ok (a, tk2) →
        tk2.source.length < tk.source.length) := by
  constructor
  · intro hb h
    unfold array_elements at h
    split at h
    · rename_i e hv
      cases h
      exact (ihv (depth + 1) tk).1 (by omega) hv
    · rename_i val tk1 hv
      have h1 := (ihv (depth + 1) tk).2 _ _ hv
      split at h
      · rename_i e hn
        cases h
        exact next_error hn rfl
      · rename_i tk2 hn
        have h2 := (length_next hn).1
        exact (ihe depth _ tk2).1 (by omega) h
      · cases h
      · injection h with h
        exact wrong_token_ne_bound _ .ExpectedCommaOrBracket (by simp) h
  · intro a tkr h
    unfold array_elements at h
    split at h
    · cases h
    · rename_i val tk1 hv
      have h1 := (ihv (depth + 1) tk).2 _ _ hv
      split at h
      · cases h
      · rename_i tk2 hn
        have h2 := (length_next hn).1
        have h3 := (ihe depth _ tk2).2 _ _ h
        omega
      · rename_i tk2 hn
        have h2 := (length_next hn).1
        cases h
        omega
      · cases h

open Parser in
theorem parser_bound (cv : Conversions) (n : Nat) :
    (∀ depth tk, (3 * tk.source.length + 2 ≤ n →
        expect_value cv n depth tk ≠ .error .RecursionBound) ∧
      (∀ v tk2, expect_value cv n depth tk = .ok (v, tk2) →
        tk2.source.length < tk.source.length)) ∧
    (∀ depth tk, (3 * tk.source.length + 1 ≤ n →
        expect_object cv n depth tk ≠ .error .RecursionBound) ∧
      (∀ o tk2, expect_object cv n depth tk = .ok (o, tk2) →
        tk2.source.length < tk.source.length)) ∧
    (∀ depth obj tk, (3 * tk.source.length + 3 ≤ n →
        object_members cv n depth obj tk ≠ .error .RecursionBound) ∧
      (∀ o tk2, object_members cv n depth obj tk = .ok (o, tk2) →
        tk2.source.length < tk.source.length)) ∧
    (∀ depth tk, (3 * tk.source.length + 1 ≤ n →
        expect_array cv n depth tk ≠ .error .RecursionBound) ∧
      (∀ a tk2, expect_array cv n depth tk = .ok (a, tk2) →
        tk2.source.length < tk.source.length)) ∧
    (∀ depth arr tk, (3 * tk.source.length + 3 ≤ n →
        array_elements cv n depth arr tk ≠ .error .RecursionBound) ∧
      (∀ a tk2, array_elements cv n depth arr tk = .ok (a, tk2) →
        tk2.source.length < tk.source.length)) := by
  induction n with
  | zero =>
    refine ⟨fun depth tk => ⟨fun hb => by omega, fun v tk2 h => ?_⟩,
      fun depth tk => ⟨fun hb => by omega, fun v tk2 h => ?_⟩,
      fun depth obj tk => ⟨fun hb => by omega, fun v tk2 h => ?_⟩,
      fun depth tk => ⟨fun hb => by omega, fun v tk2 h => ?_⟩,
      fun depth arr tk => ⟨fun hb => by omega, fun v tk2 h => ?_⟩⟩
    · unfold expect_value at h; cases h
    · unfold expect_object at h; cases h
    · unfold object_members at h; cases h
    · unfold expect_array at h; cases h
    · unfold array_elements at h; cases h
  | succ n ih =>
    obtain ⟨ihv, iho, ihm, iha, ihe⟩ := ih
    exact ⟨expect_value_step cv n iho iha, expect_object_step cv n ihm,
      object_members_step cv n ihv ihm, expect_array_step cv n ihe,
      array_elements_step cv n ihv ihe⟩

/-- The recursion bound set by `Parser.parse` is never reached: every source
text is parsed to a document or rejected with an error of the grammar. -/
theorem parse_within_bound (cv : Conversions) (source : String) :
    Parser.parse cv source ≠ .error .RecursionBound := by
  intro h
  unfold Parser.parse at h
  split at h
  · rename_i e he
    cases h
    have hl : source.toList.length = source.length := by cases source; rfl
    refine ((parser_bound cv _).2.1 0 ⟨source.toList, false⟩).1 ?_ he
    show 3 * source.toList.length + 1 ≤ 3 * source.length + 3
    omega
  · split at h
    · rename_i e hn
      cases h
      exact next_error hn rfl
    · cases h
    · cases h

end JsonDerulo
